import Mathlib

/-
Verification of the hot-reloadable configuration manager in cfg/manager.go
of github.com/CenJIl/base.

The Go package keeps a process-wide state:
  initOnce       sync.Once
  currentConfig  atomic.Pointer[any]     -- nil before any seed
  changeHandlers []func(any)
  handlerMutex   sync.Mutex
  cfgLog         common.Logger

We embed the package shallowly:
  - the atomic pointer becomes an `Option T` (none = nil pointer); its
    Load and Store are indivisible, so concurrent executions are the
    interleavings of a step relation;
  - the filesystem and the external collaborators (os.Executable,
    os.Stat, os.WriteFile, os.ReadFile, fsnotify, json.Unmarshal) become
    explicit inputs: boolean success flags, byte contents, and an
    abstract decoder `decode : Bytes -> Option T`;
  - panics become an explicit `panicMsg : Option String` in the result;
  - log output becomes an explicit list of log entries.
-/

/-- Raw file contents, as fed to json.Unmarshal. -/
abbrev Bytes := List Nat

/-- One line emitted through the cfgLog logger (Infof or Errorf). -/
inductive LogEntry where
  | info (msg : String)
  | error (msg : String)
deriving DecidableEq

/-- The state of the configuration file on disk at the resolved path. -/
structure FSState where
  fileExists : Bool
  fileBytes : Bytes
deriving DecidableEq

/-- Outcomes of the external calls made by the init body, fixed before the
run: whether os.Executable succeeds, whether the config file exists and
with which bytes, whether os.ReadFile and os.WriteFile succeed, and
whether fsnotify.NewWatcher and watcher.Add succeed. -/
structure InitEnv where
  exeOk : Bool
  fileExists : Bool
  fileBytes : Bytes
  readOk : Bool
  writeOk : Bool
  watcherOk : Bool
  addOk : Bool
deriving DecidableEq

/-- Everything observable after the init body ran: the panic (if any), the
value stored in currentConfig up to the point the body stopped, the file
state on disk, the log lines, and whether the watchConfig goroutine was
started. -/
structure InitResult (T : Type) where
  panicMsg : Option String
  store : Option T
  fsAfter : FSState
  logs : List LogEntry
  watcherStarted : Bool
deriving DecidableEq

/-- GetCfg (cfg/manager.go lines 133-139): load the atomic pointer; a nil
pointer yields new(T), the zero value of T; otherwise the stored
snapshot is returned. -/
def GetCfg {T : Type} [Inhabited T] (store : Option T) : T :=
  match store with
  | none => default
  | some v => v

/-- Spec-side description of Get (spec section 4.1): never blocks, never
errors; before any seed it returns a caller-visible empty/default value,
afterwards the current snapshot. -/
def getSpec {T : Type} [Inhabited T] (store : Option T) : T :=
  store.getD default

/-- Tail of the init body (cfg/manager.go lines 58-72): store the decoded
configuration in currentConfig, then create the fsnotify watcher and add
the path; either failure panics (the store has already happened), success
starts the watchConfig goroutine. -/
def seedAndWatch {T : Type} (cfg : T) (fsAfter : FSState) (logs : List LogEntry)
    (env : InitEnv) : InitResult T :=
  if !env.watcherOk then
    ⟨some "创建文件监听失败", some cfg, fsAfter, logs, false⟩
  else if !env.addOk then
    ⟨some "添加文件监听失败", some cfg, fsAfter, logs, false⟩
  else
    ⟨none, some cfg, fsAfter, logs, true⟩

/-- The function literal passed to initOnce.Do inside InitConfigWithLogger
(cfg/manager.go lines 29-73).  Branches, in source order:
  - os.Executable fails: panic;
  - file absent: log, write the default bytes with the error DISCARDED
    (line 41 uses the blank identifier), decode the default, panic if that
    decode fails;
  - file present but os.ReadFile fails: log, decode the default, panic if
    that decode fails;
  - file present, read ok, decode of the file bytes fails: log, decode the
    default with the error DISCARDED (line 54), leaving the zero value of
    T in cfg when the default is undecodable too;
  - file present and decodes: use the decoded value.
Then currentConfig is seeded and the watcher is set up (seedAndWatch). -/
def initBody {T : Type} [Inhabited T] (decode : Bytes → Option T)
    (defaultConfigRaw : Bytes) (env : InitEnv) : InitResult T :=
  if !env.exeOk then
    ⟨some "获取可执行文件路径失败", none, ⟨env.fileExists, env.fileBytes⟩, [], false⟩
  else if !env.fileExists then
    let logs := [LogEntry.info "配置文件不存在，写入默认配置"]
    let fsAfter : FSState :=
      if env.writeOk then ⟨true, defaultConfigRaw⟩ else ⟨false, env.fileBytes⟩
    match decode defaultConfigRaw with
    | none => ⟨some "配置初始化失败", none, fsAfter, logs, false⟩
    | some cfg => seedAndWatch cfg fsAfter logs env
  else
    let fs : FSState := ⟨true, env.fileBytes⟩
    if !env.readOk then
      let logs := [LogEntry.error "读取配置文件失败，使用内存默认值"]
      match decode defaultConfigRaw with
      | none => ⟨some "配置初始化失败", none, fs, logs, false⟩
      | some cfg => seedAndWatch cfg fs logs env
    else
      match decode env.fileBytes with
      | some cfg => seedAndWatch cfg fs [] env
      | none =>
        let cfg := (decode defaultConfigRaw).getD default
        seedAndWatch cfg fs [LogEntry.error "配置解析失败，使用内存默认值"] env

/-- Outcomes of the external calls made by one debounced reload: whether
os.ReadFile succeeds and which bytes it returns. -/
structure ReloadEnv where
  readOk : Bool
  bytes : Bytes
deriving DecidableEq

/-- Everything observable after one debounced reload ran: the value of
currentConfig afterwards, the handler invocations spawned (handler id
paired with the snapshot passed to it), and the log lines. -/
structure ReloadResult (T : Type) where
  store : Option T
  fired : List (Nat × T)
  logs : List LogEntry
deriving DecidableEq

/-- The debounce callback passed to time.AfterFunc inside watchConfig
(cfg/manager.go lines 102-121): read the file; on read error return with
no log line (line 105 is a bare return); on decode error log and return;
on success store the new snapshot, spawn one goroutine per registered
handler with the new snapshot, and log the reload. -/
def reloadOnce {T : Type} (decode : Bytes → Option T) (env : ReloadEnv)
    (store : Option T) (handlers : List Nat) : ReloadResult T :=
  if !env.readOk then
    ⟨store, [], []⟩
  else
    match decode env.bytes with
    | none => ⟨store, [], [LogEntry.error "配置热更新解析失败"]⟩
    | some cfg =>
      ⟨some cfg, handlers.map (fun h => (h, cfg)), [LogEntry.info "配置已热更新"]⟩

/-- How many callback fan-out rounds one debounced reload performs: the
loop over changeHandlers (cfg/manager.go lines 115-119) runs exactly when
both the read and the decode succeed, and it runs once. -/
def fanOutRounds {T : Type} (decode : Bytes → Option T) (env : ReloadEnv) : Nat :=
  if !env.readOk then 0
  else
    match decode env.bytes with
    | none => 0
    | some _ => 1

/-- Apply one debounced reload to the stored snapshot, keeping only the
store component (the handlers and logs do not feed back into the state). -/
def applyReload {T : Type} (decode : Bytes → Option T) (handlers : List Nat)
    (st : Option T) (env : ReloadEnv) : Option T :=
  (reloadOnce decode env st handlers).store

/-- The stored snapshot after a sequence of debounced reloads. -/
def runReloads {T : Type} (decode : Bytes → Option T) (handlers : List Nat)
    (st0 : Option T) (envs : List ReloadEnv) : Option T :=
  envs.foldl (applyReload decode handlers) st0

/-- Spec-side description of the snapshot after a reload sequence: the
most recently decoded snapshot, or the seed when no reload succeeded. -/
def lastPublished {T : Type} (decode : Bytes → Option T) (v0 : T)
    (envs : List ReloadEnv) : T :=
  envs.foldl (fun acc e => if e.readOk then (decode e.bytes).getD acc else acc) v0

/-
The atomic snapshot cell.  currentConfig is an atomic.Pointer, so Load
(inside GetCfg) and Store are single indivisible steps; a concurrent
execution of reader goroutines against one swap is therefore an
interleaving, i.e. a list of operations applied in sequence.
-/

/-- One operation in an interleaved execution against currentConfig:
a GetCfg call by the named caller, or the single Store performed by a
successful reload (cfg/manager.go lines 112-113). -/
inductive RegOp where
  | get (caller : Nat)
  | swap
deriving DecidableEq

/-- Run an interleaving of GetCfg calls and Store steps against the
atomic cell, starting from the given contents; every swap stores the
(non-nil) new snapshot.  Returns, per GetCfg call, the caller id and the
value that call returned. -/
def runRegister {T : Type} [Inhabited T] (newSnap : T) :
    List RegOp → Option T → List (Nat × T)
  | [], _ => []
  | RegOp.get c :: rest, cur => (c, GetCfg cur) :: runRegister newSnap rest cur
  | RegOp.swap :: rest, _ => runRegister newSnap rest (some newSnap)

/-
The sync.Once guard.  InitConfigWithLogger (cfg/manager.go line 29) wraps
the whole init body in initOnce.Do.  We model Do by its contract: the
first caller to arrive runs the body; callers arriving while the body
runs block; callers arriving after completion return at once; when the
body finishes, the owner and all blocked callers return.
-/

/-- Phase of the process-wide initOnce. -/
inductive OncePhase where
  | idle
  | running
  | complete
deriving DecidableEq

/-- State of the guarded initialization: the phase, which caller is
running the body, which callers are blocked inside Do, how many times the
body has executed, its outcome once complete, and which callers have
returned from InitConfigWithLogger. -/
structure OnceState (T : Type) where
  phase : OncePhase
  owner : Option Nat
  blocked : List Nat
  bodyRuns : Nat
  result : Option (InitResult T)
  returned : List Nat
deriving DecidableEq

/-- Scheduler events: a caller entering InitConfigWithLogger, or the
currently running body finishing. -/
inductive OnceEv where
  | call (caller : Nat)
  | bodyDone
deriving DecidableEq

/-- One step of the guarded initialization.  A call finds the Once idle
(takes ownership and runs the body), running (blocks), or complete
(returns immediately).  bodyDone completes the body: the result is
recorded and the owner and every blocked caller return. -/
def onceStep {T : Type} (body : Unit → InitResult T) (s : OnceState T) :
    OnceEv → OnceState T
  | OnceEv.call c =>
    match s.phase with
    | OncePhase.idle =>
      { s with phase := OncePhase.running, owner := some c,
               bodyRuns := s.bodyRuns + 1 }
    | OncePhase.running => { s with blocked := c :: s.blocked }
    | OncePhase.complete => { s with returned := c :: s.returned }
  | OnceEv.bodyDone =>
    match s.phase with
    | OncePhase.running =>
      { s with phase := OncePhase.complete, result := some (body ()),
               returned := s.owner.toList ++ s.blocked ++ s.returned,
               blocked := [], owner := none }
    | _ => s

/-- The initial state: nobody has called, the body has never run. -/
def onceInit {T : Type} : OnceState T :=
  ⟨OncePhase.idle, none, [], 0, none, []⟩

/-- Run a schedule of calls and completions from the initial state. -/
def runOnce {T : Type} (body : Unit → InitResult T) (evs : List OnceEv) :
    OnceState T :=
  evs.foldl (onceStep body) onceInit

/-
The debounce timer of watchConfig (cfg/manager.go lines 81-122), under an
idealized clock: times are in milliseconds, a timer armed at time t fires
at exactly t + 100 (debounce = 100 * time.Millisecond, line 85) unless
Stop cancels it first.  Each qualifying write event stops the pending
timer — a no-op when that timer has already fired — and arms a fresh one.
-/

/-- Watcher timing state: the deadline of the pending timer, if any, and
how many debounced reload triggers have fired so far. -/
structure WatchAcc where
  pending : Option Nat
  triggers : Nat
deriving DecidableEq

/-- Process one qualifying write event at time t (cfg/manager.go lines
98-122): if a pending timer has already reached its deadline it fired (one
trigger); otherwise Stop cancels it; either way a fresh timer with
deadline t + 100 is armed. -/
def armTimer (s : WatchAcc) (t : Nat) : WatchAcc :=
  match s.pending with
  | none => ⟨some (t + 100), s.triggers⟩
  | some d =>
    if d ≤ t then ⟨some (t + 100), s.triggers + 1⟩
    else ⟨some (t + 100), s.triggers⟩

/-- Watcher timing state after a sequence of qualifying write events at
the given times. -/
def runWatch (ts : List Nat) : WatchAcc :=
  ts.foldl armTimer ⟨none, 0⟩

/-- Total number of debounced reload triggers produced by a burst of
qualifying write events, once the quiet period finally elapses: the
triggers fired during the burst plus the pending timer, which fires after
the last event since no further event cancels it. -/
def totalTriggers (ts : List Nat) : Nat :=
  let s := runWatch ts
  s.triggers + (match s.pending with | none => 0 | some _ => 1)

/-
The watchConfig select loop viewed through its two channels
(cfg/manager.go lines 88-130): the items a run of the loop consumes, in
order, from watcher.Events and watcher.Errors.
-/

/-- One item consumed by the select loop: an event whose Op has the Write
bit, an event without it (skipped by the filter on line 94), an error
delivered on watcher.Errors (logged, loop continues), or one of the two
channels being closed (ok = false, the loop returns). -/
inductive ChanItem where
  | writeEvent
  | otherEvent
  | errItem
  | eventsClosed
  | errorsClosed
deriving DecidableEq

/-- Result of running the select loop: whether it returned, and whether a
debounce timer is still armed afterwards.  Neither return path
(lines 91-92 and 125-126) stops the timer. -/
structure LoopResult where
  returned : Bool
  timerPending : Bool
deriving DecidableEq

/-- The select loop of watchConfig over a finite stream of channel items,
carrying whether a debounce timer is currently armed.  A write event
arms the timer (stopping any previous one); a non-write event and an
error item leave it as is; a closed channel makes the loop return at once,
leaving the timer in whatever state it was. -/
def watchLoop : List ChanItem → Bool → LoopResult
  | [], pending => ⟨false, pending⟩
  | ChanItem.writeEvent :: rest, _ => watchLoop rest true
  | ChanItem.otherEvent :: rest, pending => watchLoop rest pending
  | ChanItem.errItem :: rest, pending => watchLoop rest pending
  | ChanItem.eventsClosed :: _, pending => ⟨true, pending⟩
  | ChanItem.errorsClosed :: _, pending => ⟨true, pending⟩

/-- Whether a channel item is one of the two closed-channel signals. -/
def ChanItem.isClosed : ChanItem → Bool
  | ChanItem.eventsClosed => true
  | ChanItem.errorsClosed => true
  | _ => false

/-- The value of the timer variable of watchConfig after the loop has
consumed the given items: a write event arms it, every other item leaves
it as it was.  Mirrors how the loop body updates the timer variable. -/
def armedAfter : List ChanItem → Bool → Bool
  | [], pending => pending
  | ChanItem.writeEvent :: rest, _ => armedAfter rest true
  | _ :: rest, pending => armedAfter rest pending

/-- The invariant of the guarded initialization tying the phase to the
number of body executions, the recorded result, and the returned
callers. -/
def OnceInv {T : Type} (body : Unit → InitResult T) (s : OnceState T) : Prop :=
  match s.phase with
  | OncePhase.idle => s.bodyRuns = 0 ∧ s.result = none ∧ s.returned = []
  | OncePhase.running => s.bodyRuns = 1 ∧ s.result = none ∧ s.returned = []
  | OncePhase.complete => s.bodyRuns = 1 ∧ s.result = some (body ())

/-
Helper lemmas.
-/

theorem seedAndWatch_store {T : Type} (cfg : T) (fsAfter : FSState)
    (logs : List LogEntry) (env : InitEnv) :
    (seedAndWatch cfg fsAfter logs env).store = some cfg := by
  unfold seedAndWatch
  split_ifs <;> rfl

/-- Running reloads from a seeded store always keeps the store seeded and
tracks the most recently decoded snapshot. -/
theorem runReloads_lastPublished {T : Type} (decode : Bytes → Option T)
    (handlers : List Nat) (v0 : T) (envs : List ReloadEnv) :
    runReloads decode handlers (some v0) envs =
      some (lastPublished decode v0 envs) := by
  induction envs generalizing v0 with
  | nil => rfl
  | cons e rest ih =>
    have hstep : applyReload decode handlers (some v0) e =
        some (if e.readOk then (decode e.bytes).getD v0 else v0) := by
      rcases e with ⟨readOk, bytes⟩
      cases readOk with
      | false => rfl
      | true =>
        cases hd : decode bytes with
        | none => simp [applyReload, reloadOnce, hd]
        | some c => simp [applyReload, reloadOnce, hd]
    calc runReloads decode handlers (some v0) (e :: rest)
        = runReloads decode handlers (applyReload decode handlers (some v0) e) rest := rfl
      _ = some (lastPublished decode (if e.readOk then (decode e.bytes).getD v0 else v0) rest) := by
          rw [hstep, ih]
      _ = some (lastPublished decode v0 (e :: rest)) := rfl

/-
Claim theorems.
-/

/-- C1 (last-known-good): on a debounced hot-reload trigger on which the
read of the configuration file fails or the decode of its bytes fails,
the stored snapshot is unchanged, no registered change callback is
spawned, and GetCfg afterwards returns the pre-edit snapshot. -/
theorem last_known_good {T : Type} [Inhabited T] (decode : Bytes → Option T)
    (env : ReloadEnv) (store : Option T) (handlers : List Nat)
    (hfail : env.readOk = false ∨ decode env.bytes = none) :
    (reloadOnce decode env store handlers).store = store ∧
    (reloadOnce decode env store handlers).fired = [] ∧
    GetCfg (reloadOnce decode env store handlers).store = GetCfg store := by
  rcases hfail with h | h
  · simp [reloadOnce, h]
  · cases hr : env.readOk with
    | false => simp [reloadOnce, hr]
    | true => simp [reloadOnce, hr, h]

/-- Witness for C1: a concrete failing reload (undecodable bytes) leaves
the snapshot 9 in place and fires nothing. -/
theorem last_known_good_witness :
    (reloadOnce (fun _ => (none : Option Nat)) ⟨true, [2]⟩ (some 9) [0]).store = some 9 ∧
    (reloadOnce (fun _ => (none : Option Nat)) ⟨true, [2]⟩ (some 9) [0]).fired = [] ∧
    GetCfg (reloadOnce (fun _ => (none : Option Nat)) ⟨true, [2]⟩ (some 9) [0]).store =
      GetCfg (some 9) :=
  last_known_good (fun _ => (none : Option Nat)) ⟨true, [2]⟩ (some 9) [0] (Or.inr rfl)

/-- C7 (Get is total and non-failing): GetCfg is a total function into T,
agreeing everywhere with the spec description getSpec: the zero value of
T before any seed, the current snapshot afterwards; no error value, no
nil dereference, no blocking is possible in this pure function. -/
theorem getCfg_total {T : Type} [Inhabited T] :
    GetCfg (none : Option T) = (default : T) ∧
    ∀ store : Option T, GetCfg store = getSpec store := by
  refine ⟨rfl, ?_⟩
  intro store
  cases store <;> rfl

/-- C4 counterexample: the claim says every failing hot-reload attempt is
logged, never a silent return; but at this concrete reload on which
os.ReadFile fails, cfg/manager.go line 105 returns with no log line at
all (the store is untouched and nothing fires, but the failure is
silent). -/
theorem reload_read_failure_silent :
    (reloadOnce (fun _ => (some 0 : Option Nat)) ⟨false, []⟩ (some 1) [0]).logs = [] ∧
    (reloadOnce (fun _ => (some 0 : Option Nat)) ⟨false, []⟩ (some 1) [0]).store = some 1 ∧
    (reloadOnce (fun _ => (some 0 : Option Nat)) ⟨false, []⟩ (some 1) [0]).fired = [] :=
  ⟨rfl, rfl, rfl⟩

/-- C4 as amended: both hot-reload failure modes keep the prior snapshot
and fire no callbacks, but they are not uniform in logging: a read
failure returns silently with no log line, while a decode failure logs
one error line. -/
theorem reload_failure_modes {T : Type} (decode : Bytes → Option T)
    (env : ReloadEnv) (store : Option T) (handlers : List Nat) :
    (env.readOk = false →
      reloadOnce decode env store handlers = ⟨store, [], []⟩) ∧
    (env.readOk = true → decode env.bytes = none →
      reloadOnce decode env store handlers =
        ⟨store, [], [LogEntry.error "配置热更新解析失败"]⟩) := by
  constructor
  · intro h
    simp [reloadOnce, h]
  · intro h1 h2
    simp [reloadOnce, h1, h2]

/-- Witness for the amended C4: both failure modes at concrete inputs. -/
theorem reload_failure_modes_witness :
    reloadOnce (fun _ => (none : Option Nat)) ⟨false, []⟩ (some 3) [] = ⟨some 3, [], []⟩ ∧
    reloadOnce (fun _ => (none : Option Nat)) ⟨true, []⟩ (some 3) [] =
      ⟨some 3, [], [LogEntry.error "配置热更新解析失败"]⟩ :=
  ⟨(reload_failure_modes (fun _ => (none : Option Nat)) ⟨false, []⟩ (some 3) []).1 rfl,
   (reload_failure_modes (fun _ => (none : Option Nat)) ⟨true, []⟩ (some 3) []).2 rfl rfl⟩

/-- C5 counterexample: the claim says a failure to decode the default
payload is fatal in every fallback branch; but at this concrete input
(file present, readable, undecodable, and the default undecodable too)
cfg/manager.go line 54 discards the unmarshal error: initialization
completes with no panic and seeds the zero value of T. -/
theorem default_decode_discarded :
    (initBody (fun _ => (none : Option Nat)) []
        ⟨true, true, [0], true, true, true, true⟩).panicMsg = none ∧
    (initBody (fun _ => (none : Option Nat)) []
        ⟨true, true, [0], true, true, true, true⟩).store = some 0 :=
  ⟨rfl, rfl⟩

/-- C5 as amended: a failure to decode the default payload panics in the
file-absent and file-unreadable fallback branches, but in the
file-present-but-undecodable branch the error is silently discarded and
the zero value of T is seeded (provided watcher setup succeeds). -/
theorem default_decode_fatal_branches {T : Type} [Inhabited T]
    (decode : Bytes → Option T) (defaultRaw : Bytes)
    (envA envB envC : InitEnv)
    (hdef : decode defaultRaw = none)
    (hA1 : envA.exeOk = true) (hA2 : envA.fileExists = false)
    (hB1 : envB.exeOk = true) (hB2 : envB.fileExists = true) (hB3 : envB.readOk = false)
    (hC1 : envC.exeOk = true) (hC2 : envC.fileExists = true) (hC3 : envC.readOk = true)
    (hC4 : decode envC.fileBytes = none) (hC5 : envC.watcherOk = true)
    (hC6 : envC.addOk = true) :
    (initBody decode defaultRaw envA).panicMsg = some "配置初始化失败" ∧
    (initBody decode defaultRaw envB).panicMsg = some "配置初始化失败" ∧
    (initBody decode defaultRaw envC).panicMsg = none ∧
    (initBody decode defaultRaw envC).store = some (default : T) := by
  refine ⟨?_, ?_, ?_, ?_⟩
  · simp [initBody, hdef, hA1, hA2]
  · simp [initBody, hdef, hB1, hB2, hB3]
  · simp [initBody, seedAndWatch, hdef, hC1, hC2, hC3, hC4, hC5, hC6]
  · simp [initBody, seedAndWatch, hdef, hC1, hC2, hC3, hC4, hC5, hC6]

/-- Witness for the amended C5: the three fallback branches at concrete
inputs with an undecodable default payload. -/
theorem default_decode_fatal_branches_witness :
    (initBody (fun _ => (none : Option Nat)) []
        ⟨true, false, [], true, true, true, true⟩).panicMsg = some "配置初始化失败" ∧
    (initBody (fun _ => (none : Option Nat)) []
        ⟨true, true, [0], false, true, true, true⟩).panicMsg = some "配置初始化失败" ∧
    (initBody (fun _ => (none : Option Nat)) []
        ⟨true, true, [0], true, true, true, true⟩).panicMsg = none ∧
    (initBody (fun _ => (none : Option Nat)) []
        ⟨true, true, [0], true, true, true, true⟩).store = some 0 :=
  default_decode_fatal_branches (fun _ => (none : Option Nat)) []
    ⟨true, false, [], true, true, true, true⟩
    ⟨true, true, [0], false, true, true, true⟩
    ⟨true, true, [0], true, true, true, true⟩
    rfl rfl rfl rfl rfl rfl rfl rfl rfl rfl rfl rfl

/-- C6 counterexample: the claim says that in every fresh environment with
no config file, after init the file on disk exists with the default
bytes; but cfg/manager.go line 41 discards the os.WriteFile error, so in
this concrete fresh environment where the write fails, initialization
completes without panic and the file still does not exist. -/
theorem default_file_write_discarded :
    (initBody (fun bs => if bs = ([1] : Bytes) then some (7 : Nat) else none) [1]
        ⟨true, false, [], true, false, true, true⟩).panicMsg = none ∧
    (initBody (fun bs => if bs = ([1] : Bytes) then some (7 : Nat) else none) [1]
        ⟨true, false, [], true, false, true, true⟩).fsAfter.fileExists = false ∧
    (initBody (fun bs => if bs = ([1] : Bytes) then some (7 : Nat) else none) [1]
        ⟨true, false, [], true, false, true, true⟩).store = some 7 := by
  refine ⟨?_, ?_, ?_⟩ <;> decide

/-- C6 as amended: in a fresh environment with no config file, provided
the write of the default bytes succeeds (its error is discarded by the
code), after init the file exists with exactly the default bytes and
GetCfg returns the decoded default. -/
theorem default_materialization {T : Type} [Inhabited T]
    (decode : Bytes → Option T) (defaultRaw : Bytes) (env : InitEnv) (d : T)
    (h1 : env.exeOk = true) (h2 : env.fileExists = false) (h3 : env.writeOk = true)
    (h4 : decode defaultRaw = some d) (h5 : env.watcherOk = true)
    (h6 : env.addOk = true) :
    (initBody decode defaultRaw env).panicMsg = none ∧
    (initBody decode defaultRaw env).fsAfter = ⟨true, defaultRaw⟩ ∧
    (initBody decode defaultRaw env).store = some d ∧
    GetCfg (initBody decode defaultRaw env).store = d := by
  refine ⟨?_, ?_, ?_, ?_⟩ <;>
    simp [initBody, seedAndWatch, GetCfg, h1, h2, h3, h4, h5, h6]

/-- Witness for the amended C6: a concrete fresh environment with a
succeeding write materializes the default file and snapshot. -/
theorem default_materialization_witness :
    (initBody (fun bs => if bs = ([1] : Bytes) then some (7 : Nat) else none) [1]
        ⟨true, false, [], true, true, true, true⟩).panicMsg = none ∧
    (initBody (fun bs => if bs = ([1] : Bytes) then some (7 : Nat) else none) [1]
        ⟨true, false, [], true, true, true, true⟩).fsAfter = ⟨true, [1]⟩ ∧
    (initBody (fun bs => if bs = ([1] : Bytes) then some (7 : Nat) else none) [1]
        ⟨true, false, [], true, true, true, true⟩).store = some 7 ∧
    GetCfg (initBody (fun bs => if bs = ([1] : Bytes) then some (7 : Nat) else none) [1]
        ⟨true, false, [], true, true, true, true⟩).store = 7 :=
  default_materialization (fun bs => if bs = ([1] : Bytes) then some (7 : Nat) else none)
    [1] ⟨true, false, [], true, true, true, true⟩ 7
    rfl rfl rfl (by decide) rfl rfl

/-- In an interleaving that contains no Store step, every GetCfg call
returns the value currently in the cell. -/
theorem runRegister_no_swap {T : Type} [Inhabited T] (newSnap : T) :
    ∀ (ops : List RegOp) (cur : Option T), RegOp.swap ∉ ops →
      ∀ p ∈ runRegister newSnap ops cur, p.2 = GetCfg cur := by
  intro ops
  induction ops with
  | nil =>
    intro cur _ p hp
    simp [runRegister] at hp
  | cons op rest ih =>
    intro cur hop p hp
    cases op with
    | get c =>
      have hrest : RegOp.swap ∉ rest := fun h => hop (List.mem_cons_of_mem _ h)
      rcases (List.mem_cons).mp hp with h | h
      · rw [h]
      · exact ih cur hrest p h
    | swap => exact absurd (List.mem_cons_self _ _) hop

/-- Splitting an interleaving at its single Store step. -/
theorem runRegister_swap_split {T : Type} [Inhabited T] (newSnap : T) :
    ∀ (pre post : List RegOp) (cur : Option T), RegOp.swap ∉ pre →
      runRegister newSnap (pre ++ RegOp.swap :: post) cur =
        runRegister newSnap pre cur ++ runRegister newSnap post (some newSnap) := by
  intro pre
  induction pre with
  | nil =>
    intro post cur _
    simp [runRegister]
  | cons op rest ih =>
    intro post cur hop
    cases op with
    | get c =>
      have hrest : RegOp.swap ∉ rest := fun h => hop (List.mem_cons_of_mem _ h)
      simp only [List.cons_append, runRegister, ih post cur hrest, List.append_eq]
    | swap => exact absurd (List.mem_cons_self _ _) hop

/-- C2 (atomic snapshot swap): an execution of concurrent GetCfg calls
interleaved with the single Store of a reload is, by atomicity of the
pointer, a sequence of indivisible steps; every GetCfg call strictly
before the Store returns the whole pre-swap snapshot, every call after it
returns the whole post-swap snapshot, and hence every call in the
execution returns one of the two snapshots, never a mixture. -/
theorem atomic_snapshot_swap {T : Type} [Inhabited T] (oldSnap newSnap : T)
    (pre post : List RegOp)
    (hpre : RegOp.swap ∉ pre) (hpost : RegOp.swap ∉ post) :
    (∀ p ∈ runRegister newSnap pre (some oldSnap), p.2 = oldSnap) ∧
    (∀ p ∈ runRegister newSnap post (some newSnap), p.2 = newSnap) ∧
    (∀ p ∈ runRegister newSnap (pre ++ RegOp.swap :: post) (some oldSnap),
      p.2 = oldSnap ∨ p.2 = newSnap) := by
  have hold : ∀ p ∈ runRegister newSnap pre (some oldSnap), p.2 = oldSnap :=
    runRegister_no_swap newSnap pre (some oldSnap) hpre
  have hnew : ∀ p ∈ runRegister newSnap post (some newSnap), p.2 = newSnap :=
    runRegister_no_swap newSnap post (some newSnap) hpost
  refine ⟨hold, hnew, ?_⟩
  intro p hp
  rw [runRegister_swap_split newSnap pre post (some oldSnap) hpre] at hp
  rcases List.mem_append.mp hp with h | h
  · exact Or.inl (hold p h)
  · exact Or.inr (hnew p h)

/-- Witness for C2: in the concrete interleaving get 0, swap, get 1
starting from snapshot 1 and swapping in 2, the second reader observed
the post-swap snapshot, which is one of the two snapshots. -/
theorem atomic_snapshot_swap_witness :
    ((1, (2 : Nat)) ∈ runRegister 2 [RegOp.get 0, RegOp.swap, RegOp.get 1] (some 1)) ∧
    ((1, (2 : Nat)).2 = 1 ∨ (1, (2 : Nat)).2 = 2) := by
  have h := (atomic_snapshot_swap 1 2 [RegOp.get 0] [RegOp.get 1]
    (by decide) (by decide)).2.2
  exact ⟨by decide, h (1, 2) (by decide)⟩

/-- Each step of the guarded initialization preserves the invariant. -/
theorem onceStep_inv {T : Type} (body : Unit → InitResult T) (s : OnceState T)
    (ev : OnceEv) (h : OnceInv body s) : OnceInv body (onceStep body s ev) := by
  rcases s with ⟨phase, owner, blocked, runs, res, ret⟩
  cases ev with
  | call c =>
    cases phase with
    | idle =>
      simp [OnceInv] at h
      simp [onceStep, OnceInv, h]
    | running =>
      simp [OnceInv] at h
      simp [onceStep, OnceInv, h]
    | complete =>
      simp [OnceInv] at h
      simp [onceStep, OnceInv, h]
  | bodyDone =>
    cases phase with
    | idle => exact h
    | running =>
      simp [OnceInv] at h
      simp [onceStep, OnceInv, h]
    | complete => exact h

/-- The invariant holds in every state reachable from the initial one. -/
theorem runOnce_inv {T : Type} (body : Unit → InitResult T) (evs : List OnceEv) :
    OnceInv body (runOnce body evs) := by
  suffices hgen : ∀ s : OnceState T, OnceInv body s →
      OnceInv body (List.foldl (onceStep body) s evs) from
    hgen (onceInit : OnceState T) (by simp [OnceInv, onceInit])
  induction evs with
  | nil => intro s h; exact h
  | cons e rest ih =>
    intro s h
    exact ih (onceStep body s e) (onceStep_inv body s e h)

/-- C3 (at-most-once initialization): under any schedule of concurrent
callers of InitConfigWithLogger and body completions, the init body runs
at most once; no caller returns before the single run completes; and once
any caller has returned, the body has run exactly once and its recorded
outcome is the outcome of that single initBody run, observed identically
by every returning caller. -/
theorem init_at_most_once {T : Type} [Inhabited T] (decode : Bytes → Option T)
    (defaultRaw : Bytes) (env : InitEnv) (evs : List OnceEv) :
    (runOnce (fun _ => initBody decode defaultRaw env) evs).bodyRuns ≤ 1 ∧
    ((runOnce (fun _ => initBody decode defaultRaw env) evs).phase ≠ OncePhase.complete →
      (runOnce (fun _ => initBody decode defaultRaw env) evs).returned = []) ∧
    ((runOnce (fun _ => initBody decode defaultRaw env) evs).returned ≠ [] →
      (runOnce (fun _ => initBody decode defaultRaw env) evs).bodyRuns = 1 ∧
      (runOnce (fun _ => initBody decode defaultRaw env) evs).result =
        some (initBody decode defaultRaw env)) := by
  have hinv := runOnce_inv (fun _ => initBody decode defaultRaw env) evs
  set s := runOnce (fun _ => initBody decode defaultRaw env) evs with hs
  rcases hphase : s.phase with _ | _ | _ <;> rw [OnceInv, hphase] at hinv
  · exact ⟨by omega, fun _ => hinv.2.2, fun hr => absurd hinv.2.2 hr⟩
  · exact ⟨by omega, fun _ => hinv.2.2, fun hr => absurd hinv.2.2 hr⟩
  · exact ⟨by omega, fun hc => (hc rfl).elim, fun _ => hinv⟩

/-- Witness for C3: three callers, one completion; caller 0 runs the body,
caller 1 blocks and returns on completion, caller 2 returns immediately;
the body ran exactly once and its outcome is recorded. -/
theorem init_at_most_once_witness :
    (runOnce (fun _ => initBody (fun _ => (some 0 : Option Nat)) []
        ⟨true, false, [], true, true, true, true⟩)
      [OnceEv.call 0, OnceEv.call 1, OnceEv.bodyDone, OnceEv.call 2]).bodyRuns = 1 ∧
    (runOnce (fun _ => initBody (fun _ => (some 0 : Option Nat)) []
        ⟨true, false, [], true, true, true, true⟩)
      [OnceEv.call 0, OnceEv.call 1, OnceEv.bodyDone, OnceEv.call 2]).result =
      some (initBody (fun _ => (some 0 : Option Nat)) []
        ⟨true, false, [], true, true, true, true⟩) :=
  (init_at_most_once (fun _ => (some 0 : Option Nat)) []
    ⟨true, false, [], true, true, true, true⟩
    [OnceEv.call 0, OnceEv.call 1, OnceEv.bodyDone, OnceEv.call 2]).2.2 (by decide)

/-- While every next qualifying event arrives strictly inside the quiet
period of the previous one, the armed timer is always cancelled before
its deadline: no trigger fires during the burst, and the pending deadline
tracks the latest event. -/
theorem foldl_armTimer_chain :
    ∀ (ts : List Nat) (t k : Nat),
      List.Chain' (fun a b => b < a + 100) (t :: ts) →
      ∃ u, List.foldl armTimer ⟨some (t + 100), k⟩ ts = ⟨some (u + 100), k⟩ := by
  intro ts
  induction ts with
  | nil =>
    intro t k _
    exact ⟨t, rfl⟩
  | cons t2 rest ih =>
    intro t k h
    rcases List.chain'_cons.mp h with ⟨hlt, hrest⟩
    have hstep : armTimer ⟨some (t + 100), k⟩ t2 = ⟨some (t2 + 100), k⟩ := by
      simp [armTimer, if_neg (by omega : ¬ t + 100 ≤ t2)]
    rw [List.foldl_cons, hstep]
    exact ih t2 k hrest

/-- Appending one more qualifying event always rearms the timer with a
fresh 100 ms deadline, whatever came before. -/
theorem runWatch_append_pending (xs : List Nat) (t : Nat) :
    (runWatch (xs ++ [t])).pending = some (t + 100) := by
  unfold runWatch
  rw [List.foldl_append]
  rcases List.foldl armTimer ⟨none, 0⟩ xs with ⟨pending, triggers⟩
  cases pending with
  | none => rfl
  | some d =>
    simp only [List.foldl_cons, List.foldl_nil, armTimer]
    split <;> rfl

/-- C8 (debounce collapse): for a burst of one or more qualifying write
events in which each event arrives strictly within the 100 ms quiet
period of the previous one, each event rearms the timer with deadline
event time plus 100, and exactly one debounced reload trigger is
produced, once the quiet period finally elapses; moreover a single
trigger performs at most one callback fan-out round, spawning each of the
registered handlers exactly once when the reload succeeds and none
otherwise. -/
theorem debounce_collapse (T : Type) (ts : List Nat) (h1 : ts ≠ [])
    (h2 : List.Chain' (fun a b => b < a + 100) ts) :
    totalTriggers ts = 1 ∧
    (∀ pre t rest, ts = pre ++ t :: rest →
      (runWatch (pre ++ [t])).pending = some (t + 100)) ∧
    (∀ (decode : Bytes → Option T) (env : ReloadEnv) (store : Option T)
        (handlers : List Nat),
      fanOutRounds decode env ≤ 1 ∧
      (reloadOnce decode env store handlers).fired.length =
        handlers.length * fanOutRounds decode env) := by
  refine ⟨?_, ?_, ?_⟩
  · rcases ts with _ | ⟨t, rest⟩
    · exact absurd rfl h1
    · obtain ⟨u, hu⟩ := foldl_armTimer_chain rest t 0 h2
      have hrun : runWatch (t :: rest) = ⟨some (u + 100), 0⟩ := by
        unfold runWatch
        rw [List.foldl_cons]
        exact hu
      simp [totalTriggers, hrun]
  · intro pre t rest _
    exact runWatch_append_pending pre t
  · intro decode env store handlers
    rcases env with ⟨readOk, bytes⟩
    cases readOk with
    | false => simp [fanOutRounds, reloadOnce]
    | true =>
      cases hd : decode bytes with
      | none => simp [fanOutRounds, reloadOnce, hd]
      | some c => simp [fanOutRounds, reloadOnce, hd]

/-- Witness for C8: three writes at 0, 50 and 120 ms, each within 100 ms
of the previous one, collapse into exactly one reload trigger. -/
theorem debounce_collapse_witness : totalTriggers [0, 50, 120] = 1 :=
  (debounce_collapse Nat [0, 50, 120] (by decide)
    (List.chain'_cons.mpr ⟨by omega,
      List.chain'_cons.mpr ⟨by omega, List.chain'_singleton 120⟩⟩)).1

/-- Once the timer variable of watchConfig is armed it stays armed: no
later loop iteration disarms it (a write event merely swaps it for a
fresh timer). -/
theorem armedAfter_stays_true : ∀ pre : List ChanItem, armedAfter pre true = true := by
  intro pre
  induction pre with
  | nil => rfl
  | cons it rest ih => cases it <;> simpa [armedAfter] using ih

/-- If some write event occurred, the timer variable is armed afterwards. -/
theorem armedAfter_of_write :
    ∀ (pre : List ChanItem) (p : Bool), ChanItem.writeEvent ∈ pre →
      armedAfter pre p = true := by
  intro pre
  induction pre with
  | nil =>
    intro p hp
    simp at hp
  | cons it rest ih =>
    intro p hp
    cases it with
    | writeEvent => simpa [armedAfter] using armedAfter_stays_true rest
    | otherEvent =>
      have : ChanItem.writeEvent ∈ rest := by simpa using hp
      simpa [armedAfter] using ih p this
    | errItem =>
      have : ChanItem.writeEvent ∈ rest := by simpa using hp
      simpa [armedAfter] using ih p this
    | eventsClosed =>
      have : ChanItem.writeEvent ∈ rest := by simpa using hp
      simpa [armedAfter] using ih p this
    | errorsClosed =>
      have : ChanItem.writeEvent ∈ rest := by simpa using hp
      simpa [armedAfter] using ih p this

/-- The select loop returns at the first closed-channel item, with the
timer variable exactly as the consumed prefix left it. -/
theorem watchLoop_close :
    ∀ (pre : List ChanItem) (rest : List ChanItem) (c : ChanItem) (pending0 : Bool),
      (∀ it ∈ pre, it.isClosed = false) → c.isClosed = true →
      watchLoop (pre ++ c :: rest) pending0 = ⟨true, armedAfter pre pending0⟩ := by
  intro pre
  induction pre with
  | nil =>
    intro rest c pending0 _ hc
    cases c with
    | writeEvent => simp [ChanItem.isClosed] at hc
    | otherEvent => simp [ChanItem.isClosed] at hc
    | errItem => simp [ChanItem.isClosed] at hc
    | eventsClosed => rfl
    | errorsClosed => rfl
  | cons it pre2 ih =>
    intro rest c pending0 hpre hc
    have hit : it.isClosed = false := hpre it (List.mem_cons_self _ _)
    have hpre2 : ∀ x ∈ pre2, x.isClosed = false :=
      fun x hx => hpre x (List.mem_cons_of_mem _ hx)
    cases it with
    | writeEvent => simpa [watchLoop, armedAfter] using ih rest c true hpre2 hc
    | otherEvent => simpa [watchLoop, armedAfter] using ih rest c pending0 hpre2 hc
    | errItem => simpa [watchLoop, armedAfter] using ih rest c pending0 hpre2 hc
    | eventsClosed => simp [ChanItem.isClosed] at hit
    | errorsClosed => simp [ChanItem.isClosed] at hit

/-- C9 as amended: the watchConfig loop terminates at the first
closed-channel item, consuming nothing after it; but neither return path
stops the debounce timer, so the timer variable keeps exactly the state
it had on teardown, and in particular a timer armed by an earlier write
event is still armed (and will still fire once) after the loop has
returned. -/
theorem watch_teardown (pre rest : List ChanItem) (c : ChanItem) (pending0 : Bool)
    (hpre : ∀ it ∈ pre, it.isClosed = false)
    (hc : c.isClosed = true) :
    watchLoop (pre ++ c :: rest) pending0 = ⟨true, armedAfter pre pending0⟩ ∧
    (ChanItem.writeEvent ∈ pre → armedAfter pre pending0 = true) :=
  ⟨watchLoop_close pre rest c pending0 hpre hc, armedAfter_of_write pre pending0⟩

/-- C9 counterexample: the claim says the pending debounce timer is
stopped on teardown; but in this concrete run a write event arms the
timer and then the events channel closes: the loop returns with the
timer still armed, so the timer is leaked and will still fire. -/
theorem teardown_timer_leaked :
    watchLoop [ChanItem.writeEvent, ChanItem.eventsClosed] false = ⟨true, true⟩ :=
  rfl

/-- Witness for the amended C9: a concrete run with non-write events, a
write, and an error item before the errors channel closes; the loop
returns with the timer still armed. -/
theorem watch_teardown_witness :
    watchLoop [ChanItem.otherEvent, ChanItem.writeEvent, ChanItem.errItem,
      ChanItem.errorsClosed, ChanItem.eventsClosed] false = ⟨true, true⟩ ∧
    armedAfter [ChanItem.otherEvent, ChanItem.writeEvent, ChanItem.errItem] false = true := by
  have h := watch_teardown
    [ChanItem.otherEvent, ChanItem.writeEvent, ChanItem.errItem]
    [ChanItem.eventsClosed] ChanItem.errorsClosed false (by decide) rfl
  exact ⟨h.1, h.2 (by decide)⟩

/-- An init body that finished without panicking has seeded the store. -/
theorem initBody_store_of_no_panic {T : Type} [Inhabited T]
    (decode : Bytes → Option T) (defaultRaw : Bytes) (env : InitEnv)
    (h : (initBody decode defaultRaw env).panicMsg = none) :
    ∃ v0 : T, (initBody decode defaultRaw env).store = some v0 := by
  by_cases he : env.exeOk
  · by_cases hf : env.fileExists
    · by_cases hr : env.readOk
      · cases hfb : decode env.fileBytes with
        | some cfg =>
          refine ⟨cfg, ?_⟩
          simp [initBody, he, hf, hr, hfb, seedAndWatch_store]
        | none =>
          refine ⟨(decode defaultRaw).getD default, ?_⟩
          simp [initBody, he, hf, hr, hfb, seedAndWatch_store]
      · cases hd : decode defaultRaw with
        | some cfg =>
          refine ⟨cfg, ?_⟩
          simp [initBody, he, hf, hr, hd, seedAndWatch_store]
        | none =>
          simp [initBody, he, hf, hr, hd] at h
    · cases hd : decode defaultRaw with
      | some cfg =>
        refine ⟨cfg, ?_⟩
        simp [initBody, he, hf, hd, seedAndWatch_store]
      | none =>
        simp [initBody, he, hf, hd] at h
  · simp [initBody, he] at h

/-- C10 (implicit non-nil store invariant): once initialization completed
without aborting, currentConfig holds a non-nil snapshot; every
subsequent successful hot reload again stores a non-nil decoded snapshot,
so after any sequence of reload attempts the store still holds the most
recently published snapshot and GetCfg returns it — never the freshly
constructed pre-init zero value of the nil branch. -/
theorem store_nonnil_after_init {T : Type} [Inhabited T]
    (decode : Bytes → Option T) (defaultRaw : Bytes) (env : InitEnv)
    (handlers : List Nat) (envs : List ReloadEnv)
    (h : (initBody decode defaultRaw env).panicMsg = none) :
    ∃ v0 : T, (initBody decode defaultRaw env).store = some v0 ∧
      runReloads decode handlers (initBody decode defaultRaw env).store envs =
        some (lastPublished decode v0 envs) ∧
      GetCfg (runReloads decode handlers (initBody decode defaultRaw env).store envs) =
        lastPublished decode v0 envs := by
  obtain ⟨v0, hv0⟩ := initBody_store_of_no_panic decode defaultRaw env h
  refine ⟨v0, hv0, ?_, ?_⟩
  · rw [hv0]
    exact runReloads_lastPublished decode handlers v0 envs
  · rw [hv0, runReloads_lastPublished decode handlers v0 envs]
    rfl

/-- Witness for C10: a concrete successful init (fresh file, decodable
default) followed by one hot reload whose bytes decode to 9; the store
ends at snapshot 9. -/
theorem store_nonnil_after_init_witness :
    runReloads (fun bs => if bs = ([1] : Bytes) then some (5 : Nat)
        else if bs = ([3] : Bytes) then some 9 else none) []
      ((initBody (fun bs => if bs = ([1] : Bytes) then some (5 : Nat)
        else if bs = ([3] : Bytes) then some 9 else none) [1]
        ⟨true, false, [], true, true, true, true⟩).store) [⟨true, [3]⟩] = some 9 := by
  obtain ⟨v0, h1, h2, h3⟩ := store_nonnil_after_init
    (fun bs => if bs = ([1] : Bytes) then some (5 : Nat)
      else if bs = ([3] : Bytes) then some 9 else none) [1]
    ⟨true, false, [], true, true, true, true⟩ [] [⟨true, [3]⟩] rfl
  exact h2.trans rfl
